import Mathlib

set_option maxRecDepth 8000

/-!
Shallow embedding of the homebridge-ai-plugin command pipeline:
the intent resolver (`AIService.processCommand`), the action dispatcher
(`HomebridgeAIPlatform.executeAction` and its helpers) and the HTTP
command route.  Strings are modelled as `List Char`; the JavaScript
string operations used by the source (`toLowerCase`, `includes`,
`trim`, the one regular expression, `JSON.parse`) are given explicit
executable models below.
-/

/-- Lowercasing of a character list, modelling `String.prototype.toLowerCase`
on the ASCII range (every phrase and device name the code compares is ASCII). -/
def lower (s : List Char) : List Char := s.map Char.toLower

/-- `startsWithL pat s` holds when `pat` is a prefix of `s`. -/
def startsWithL : List Char → List Char → Bool
  | [], _ => true
  | _ :: _, [] => false
  | p :: ps, c :: cs => p == c && startsWithL ps cs

/-- `containsSub pat s`: `s` contains `pat` as a contiguous substring,
modelling `String.prototype.includes`. -/
def containsSub (pat : List Char) : List Char → Bool
  | [] => pat.isEmpty
  | c :: rest => startsWithL pat (c :: rest) || containsSub pat rest

/-- Characteristic kinds the dispatcher distinguishes (the source compares
`characteristic.UUID` against `Characteristic.On.UUID` and
`Characteristic.TargetTemperature.UUID`; any other UUID falls through). -/
inductive CharacteristicKind where
  | On
  | TargetTemperature
  | OtherChar (uuid : List Char)
deriving DecidableEq

/-- Values the dispatcher can write: booleans for power state, the parsed
integer for target temperature. -/
inductive CharacteristicValue where
  | b (x : Bool)
  | n (x : Nat)
deriving DecidableEq

/-- Characters matched by `.` in a JavaScript regular expression without the
`s` flag: everything except the four line terminators. -/
def isDotChar (c : Char) : Bool :=
  !(c == '\n' || c == '\r' || c == Char.ofNat 0x2028 || c == Char.ofNat 0x2029)

/-- Length of the longest prefix of `s` that `.*` can consume. -/
def dotLen (s : List Char) : Nat := (s.takeWhile isDotChar).length

/-- One attempt of the tail `to (\d+)` of the regex at offset `j` of `r`:
the literal `to ` must match and the greedy `(\d+)` then captures the
maximal digit run, which must be non-empty. -/
def toClauseAt (r : List Char) (j : Nat) : Option (List Char) :=
  if startsWithL "to ".toList (r.drop j) then
    if (((r.drop j).drop 3).takeWhile Char.isDigit).isEmpty then none
    else some (((r.drop j).drop 3).takeWhile Char.isDigit)
  else none

/-- Model of the tail `.*to (\d+)` of the regex `/set.*temperature.*to (\d+)/`:
`r` is the text after `temperature`; the greedy `.*` skips the longest
possible run of dot characters, so offsets are tried in decreasing order. -/
def matchToClause (r : List Char) : Option (List Char) :=
  (List.range (dotLen r + 1)).reverse.findSome? (toClauseAt r)

/-- One attempt of `temperature.*to (\d+)` at offset `i` of `r`: the literal
`temperature` must match and the rest is handled by `matchToClause`. -/
def temperatureClauseAt (r : List Char) (i : Nat) : Option (List Char) :=
  if startsWithL "temperature".toList (r.drop i) then
    matchToClause ((r.drop i).drop 11)
  else none

/-- Model of the part `.*temperature.*to (\d+)` of the regex: `r` is the text
after `set`; the greedy `.*` before `temperature` tries offsets in decreasing
order, backtracking into `matchToClause`. -/
def matchTemperatureClause (r : List Char) : Option (List Char) :=
  (List.range (dotLen r + 1)).reverse.findSome? (temperatureClauseAt r)

/-- One attempt of the whole pattern at start position `q` of `s`: the
literal `set` must match at `q` exactly. -/
def setClauseAt (s : List Char) (q : Nat) : Option (List Char) :=
  if startsWithL "set".toList (s.drop q) then
    matchTemperatureClause ((s.drop q).drop 3)
  else none

/-- Model of `s.match(/set.*temperature.*to (\d+)/)`, returning the digits of
capture group 1.  The unanchored search tries start positions left to right;
at each position the literal `set` must match and the rest is matched with
the greedy backtracking modelled above. -/
def tempRegexMatch (s : List Char) : Option (List Char) :=
  (List.range (s.length + 1)).findSome? (setClauseAt s)

/-- Decimal digit run to a natural number, modelling `parseInt(ds, 10)` on an
all-digit capture. -/
def digitsToNat (ds : List Char) : Nat :=
  ds.foldl (fun acc c => acc * 10 + (c.toNat - '0'.toNat)) 0

/-- Model of `HomebridgeAIPlatform.determineValueForAction`: lowercase the
action, then branch on the characteristic kind exactly as the source's two
UUID tests do (power phrases for `On`, the temperature regex for
`TargetTemperature`, `null` otherwise). -/
def determineValueForAction (action : List Char) (ck : CharacteristicKind) :
    Option CharacteristicValue :=
  let actionLower := lower action
  if ck = CharacteristicKind.On then
    if containsSub "turn on".toList actionLower ||
        containsSub "switch on".toList actionLower then
      some (CharacteristicValue.b true)
    else if containsSub "turn off".toList actionLower ||
        containsSub "switch off".toList actionLower then
      some (CharacteristicValue.b false)
    else
      none
  else if ck = CharacteristicKind.TargetTemperature then
    match tempRegexMatch actionLower with
    | some ds => some (CharacteristicValue.n (digitsToNat ds))
    | none => none
  else
    none

/-- Service kinds the dispatcher's `instanceof` chain distinguishes. -/
inductive ServiceKind where
  | Lightbulb
  | Switch
  | Thermostat
  | Fan
  | Outlet
  | OtherService (uuid : List Char)
deriving DecidableEq

/-- A service as the dispatcher sees it: its display name and its kind. -/
structure ServiceInfo where
  displayName : List Char
  serviceKind : ServiceKind
deriving DecidableEq

/-- A platform accessory as the dispatcher sees it: its display name and its
ordered list of services. -/
structure AccessoryInfo where
  displayName : List Char
  services : List ServiceInfo
deriving DecidableEq

/-- The structured intent the resolver is meant to produce. -/
structure Intent where
  action : List Char
  device : List Char
deriving DecidableEq

/-- Model of `HomebridgeAIPlatform.findAccessoryByName`: first accessory whose
display name equals the requested name case-insensitively. -/
def findAccessoryByName (accessories : List AccessoryInfo) (name : List Char) :
    Option AccessoryInfo :=
  accessories.find? (fun acc => lower acc.displayName == lower name)

/-- The service lookup inside `executeAction`: first service on the accessory
whose display name equals the intent's device name case-insensitively. -/
def selectServiceForDevice (accessory : AccessoryInfo) (device : List Char) :
    Option ServiceInfo :=
  accessory.services.find? (fun s => lower s.displayName == lower device)

/-- Model of `HomebridgeAIPlatform.getCharacteristicForService`: the fixed
table from service kind to controlled characteristic. -/
def getCharacteristicForService (k : ServiceKind) : Option CharacteristicKind :=
  match k with
  | ServiceKind.Lightbulb => some CharacteristicKind.On
  | ServiceKind.Switch => some CharacteristicKind.On
  | ServiceKind.Thermostat => some CharacteristicKind.TargetTemperature
  | ServiceKind.Fan => some CharacteristicKind.On
  | ServiceKind.Outlet => some CharacteristicKind.On
  | ServiceKind.OtherService _ => none

/-- Outcome of one dispatch, mirroring the branch structure of
`HomebridgeAIPlatform.executeAction` (each failure constructor corresponds to
one of its `log.error` branches; `applied` corresponds to `setValue`). -/
inductive DispatchResult where
  | accessoryNotFound (device : List Char)
  | serviceNotFound (device : List Char)
  | characteristicNotFound (serviceName : List Char)
  | valueUndetermined (action : List Char)
  | applied (serviceName : List Char) (ck : CharacteristicKind) (v : CharacteristicValue)
deriving DecidableEq

/-- Model of `HomebridgeAIPlatform.executeAction`. -/
def executeAction (accessories : List AccessoryInfo) (intent : Intent) :
    DispatchResult :=
  match findAccessoryByName accessories intent.device with
  | none => DispatchResult.accessoryNotFound intent.device
  | some accessory =>
    match selectServiceForDevice accessory intent.device with
    | none => DispatchResult.serviceNotFound intent.device
    | some service =>
      match getCharacteristicForService service.serviceKind with
      | none => DispatchResult.characteristicNotFound service.displayName
      | some ck =>
        match determineValueForAction intent.action ck with
        | none => DispatchResult.valueUndetermined intent.action
        | some v => DispatchResult.applied service.displayName ck v


/-- Declarative reading of the pattern `set.*temperature.*to (\d+)` on `s`:
some occurrence of `set`, later `temperature`, later `to ` followed by a
non-empty digit run, with only dot characters (no line terminators) between
the three keywords. -/
def HasTempPattern (s : List Char) : Prop :=
  ∃ p b c ds rest : List Char,
    s = p ++ ("set".toList ++ (b ++ ("temperature".toList ++
      (c ++ ("to ".toList ++ (ds ++ rest)))))) ∧
    ds ≠ [] ∧ (∀ ch ∈ ds, Char.isDigit ch = true) ∧
    (∀ ch ∈ b, isDotChar ch = true) ∧ (∀ ch ∈ c, isDotChar ch = true)

/-- Declarative reading of a successful match that captured exactly `ds`:
as `HasTempPattern`, with the captured digit run maximal (the character
right after it, if any, is not a digit). -/
def IsTempMatchWith (s ds : List Char) : Prop :=
  ∃ p b c rest : List Char,
    s = p ++ ("set".toList ++ (b ++ ("temperature".toList ++
      (c ++ ("to ".toList ++ (ds ++ rest)))))) ∧
    ds ≠ [] ∧ (∀ ch ∈ ds, Char.isDigit ch = true) ∧
    (∀ ch ∈ b, isDotChar ch = true) ∧ (∀ ch ∈ c, isDotChar ch = true) ∧
    (∀ ch, rest.head? = some ch → Char.isDigit ch = false)

/-- JSON whitespace characters. -/
def isJsonWs (c : Char) : Bool :=
  c == ' ' || c == '\t' || c == '\n' || c == '\r'

/-- Hexadecimal digit value, for `\u` escapes in JSON strings. -/
def hexVal (c : Char) : Option Nat :=
  if '0' ≤ c ∧ c ≤ '9' then some (c.toNat - '0'.toNat)
  else if 'a' ≤ c ∧ c ≤ 'f' then some (c.toNat - 'a'.toNat + 10)
  else if 'A' ≤ c ∧ c ≤ 'F' then some (c.toNat - 'A'.toNat + 10)
  else none

/-- JSON values as produced by `JSON.parse`.  Numbers are kept as their
source lexeme: the pipeline never computes with a parsed number, so the
float reading is irrelevant here. -/
inductive Js where
  | null
  | bool (b : Bool)
  | num (lexeme : List Char)
  | str (s : List Char)
  | arr (elems : List Js)
  | obj (fields : List (List Char × Js))

/-- Body of a JSON string after the opening quote: decoded content plus the
remainder after the closing quote.  Escapes are decoded per the JSON
grammar; a `\u` escape becomes the character of its code unit (surrogate
pairs are not recombined — nothing in the pipeline depends on them). -/
def parseStringBody : Nat → List Char → Option (List Char × List Char)
  | 0, _ => none
  | _, [] => none
  | fuel + 1, c :: rest =>
    if c == '"' then some ([], rest)
    else if c == '\\' then
      match rest with
      | [] => none
      | e :: rest2 =>
        let decoded : Option (Char × List Char) :=
          if e == '"' then some ('"', rest2)
          else if e == '\\' then some ('\\', rest2)
          else if e == '/' then some ('/', rest2)
          else if e == 'b' then some (Char.ofNat 8, rest2)
          else if e == 'f' then some (Char.ofNat 12, rest2)
          else if e == 'n' then some ('\n', rest2)
          else if e == 'r' then some ('\r', rest2)
          else if e == 't' then some ('\t', rest2)
          else if e == 'u' then
            match rest2 with
            | h1 :: h2 :: h3 :: h4 :: rest3 =>
              match hexVal h1, hexVal h2, hexVal h3, hexVal h4 with
              | some a, some b2, some c2, some d2 =>
                some (Char.ofNat (((a * 16 + b2) * 16 + c2) * 16 + d2), rest3)
              | _, _, _, _ => none
            | _ => none
          else none
        match decoded with
        | none => none
        | some (ch, r) =>
          match parseStringBody fuel r with
          | some (tail, rem) => some (ch :: tail, rem)
          | none => none
    else if c.toNat < 32 then none
    else
      match parseStringBody fuel rest with
      | some (tail, rem) => some (c :: tail, rem)
      | none => none

/-- Optional fraction part of a JSON number (empty when absent; a bare `.`
is a parse error). -/
def parseFracPart (s : List Char) : Option (List Char × List Char) :=
  match s with
  | '.' :: t =>
    if (t.takeWhile Char.isDigit).isEmpty then none
    else some ('.' :: t.takeWhile Char.isDigit, t.drop (t.takeWhile Char.isDigit).length)
  | _ => some ([], s)

/-- Optional exponent part of a JSON number. -/
def parseExpPart (s : List Char) : Option (List Char × List Char) :=
  match s with
  | [] => some ([], [])
  | e :: t =>
    if e == 'e' || e == 'E' then
      let sgnAndRest : List Char × List Char :=
        match t with
        | '+' :: t2 => (['+'], t2)
        | '-' :: t2 => (['-'], t2)
        | _ => ([], t)
      if (sgnAndRest.2.takeWhile Char.isDigit).isEmpty then none
      else some (e :: (sgnAndRest.1 ++ sgnAndRest.2.takeWhile Char.isDigit),
        sgnAndRest.2.drop (sgnAndRest.2.takeWhile Char.isDigit).length)
    else some ([], e :: t)

/-- Lexeme of a JSON number, `-?(0|[1-9][0-9]*)` with optional fraction and
exponent, plus the remaining input. -/
def parseNumberLexeme (s : List Char) : Option (List Char × List Char) :=
  let minusAndRest : List Char × List Char :=
    match s with
    | '-' :: t => (['-'], t)
    | _ => ([], s)
  match minusAndRest.2 with
  | [] => none
  | c :: _ =>
    if c.isDigit then
      let intPart := if c == '0' then ['0'] else minusAndRest.2.takeWhile Char.isDigit
      match parseFracPart (minusAndRest.2.drop intPart.length) with
      | none => none
      | some (fp, s3) =>
        match parseExpPart s3 with
        | none => none
        | some (ep, s4) => some (minusAndRest.1 ++ intPart ++ fp ++ ep, s4)
    else none

mutual

/-- Recursive-descent model of the JSON value grammar (the fuel only bounds
nesting; `jsonParse` supplies enough for any input). -/
def parseJsonValue : Nat → List Char → Option (Js × List Char)
  | 0, _ => none
  | fuel + 1, s =>
    match s.dropWhile isJsonWs with
    | [] => none
    | c :: rest =>
      if c == '\x7b' then
        match rest.dropWhile isJsonWs with
        | '\x7d' :: r2 => some (Js.obj [], r2)
        | _ =>
          match parseJsonMembers fuel rest with
          | some (fields, r2) => some (Js.obj fields, r2)
          | none => none
      else if c == '[' then
        match rest.dropWhile isJsonWs with
        | ']' :: r2 => some (Js.arr [], r2)
        | _ =>
          match parseJsonElements fuel rest with
          | some (elems, r2) => some (Js.arr elems, r2)
          | none => none
      else if c == '"' then
        match parseStringBody (rest.length + 1) rest with
        | some (sb, r2) => some (Js.str sb, r2)
        | none => none
      else if c == 't' then
        if startsWithL "rue".toList rest then some (Js.bool true, rest.drop 3)
        else none
      else if c == 'f' then
        if startsWithL "alse".toList rest then some (Js.bool false, rest.drop 4)
        else none
      else if c == 'n' then
        if startsWithL "ull".toList rest then some (Js.null, rest.drop 3)
        else none
      else
        match parseNumberLexeme (c :: rest) with
        | some (lex, r2) => some (Js.num lex, r2)
        | none => none

/-- Members of a JSON object after the opening brace (at least one). -/
def parseJsonMembers : Nat → List Char → Option (List (List Char × Js) × List Char)
  | 0, _ => none
  | fuel + 1, s =>
    match s.dropWhile isJsonWs with
    | '"' :: r =>
      match parseStringBody (r.length + 1) r with
      | some (key, r2) =>
        match r2.dropWhile isJsonWs with
        | ':' :: r3 =>
          match parseJsonValue fuel r3 with
          | some (v, r4) =>
            match r4.dropWhile isJsonWs with
            | ',' :: r5 =>
              match parseJsonMembers fuel r5 with
              | some (fields, r6) => some ((key, v) :: fields, r6)
              | none => none
            | '\x7d' :: r5 => some ([(key, v)], r5)
            | _ => none
          | none => none
        | _ => none
      | none => none
    | _ => none

/-- Elements of a JSON array after the opening bracket (at least one). -/
def parseJsonElements : Nat → List Char → Option (List Js × List Char)
  | 0, _ => none
  | fuel + 1, s =>
    match parseJsonValue fuel s with
    | some (v, r) =>
      match r.dropWhile isJsonWs with
      | ',' :: r2 =>
        match parseJsonElements fuel r2 with
        | some (elems, r3) => some (v :: elems, r3)
        | none => none
      | ']' :: r2 => some ([v], r2)
      | _ => none
    | none => none

end

/-- Model of `JSON.parse`: one value, then only whitespace to the end. -/
def jsonParse (s : List Char) : Option Js :=
  match parseJsonValue (s.length + 1) s with
  | some (v, rest) => if (rest.dropWhile isJsonWs).isEmpty then some v else none
  | none => none

/-- Whitespace removed by `String.prototype.trim` (the ASCII whitespace
characters plus NBSP, BOM and the two Unicode line separators). -/
def isTrimWs (c : Char) : Bool :=
  c == ' ' || c == '\t' || c == '\n' || c == '\r' ||
  c == Char.ofNat 11 || c == Char.ofNat 12 ||
  c == Char.ofNat 0xA0 || c == Char.ofNat 0xFEFF ||
  c == Char.ofNat 0x2028 || c == Char.ofNat 0x2029

/-- Model of `String.prototype.trim`. -/
def jsTrim (s : List Char) : List Char :=
  ((s.dropWhile isTrimWs).reverse.dropWhile isTrimWs).reverse

/-- Outcome of the remote completion call as `AIService.processCommand`
observes it: either the request promise rejects (transport or API failure,
which propagates uncaught), or a response envelope arrives in which the
optional chain `response.data?.choices?.[0]?.text` is absent or yields some
text. -/
inductive Completion where
  | failure
  | response (text : Option (List Char))

/-- Errors `AIService.processCommand` can surface: the propagated remote
rejection, the thrown `No response from AI` error, and the thrown
`Failed to parse AI response` error carrying the offending text. -/
inductive AIError where
  | remoteFailure
  | noResponse
  | parseFailed (raw : List Char)

/-- Observable outcome of one `AIService.processCommand` run: how many remote
completion calls were issued, and the returned value or thrown error. -/
structure ResolverRun where
  remoteCalls : Nat
  result : Except AIError Js

set_option linter.unusedVariables false in
/-- Model of `AIService.processCommand` (the aiService wired into the
platform): the completion request is issued unconditionally, before and
regardless of any inspection of `command`; the response text is trimmed; an
absent or empty text throws `No response from AI`; otherwise the text goes
to `JSON.parse` and the parsed value is returned with no validation of its
shape (`JSON.parse` failure throws the parse error). -/
def processCommand (command : List Char) (completion : Completion) : ResolverRun :=
  ⟨1,
    match completion with
    | Completion.failure => Except.error AIError.remoteFailure
    | Completion.response text =>
      match text with
      | none => Except.error AIError.noResponse
      | some t =>
        if (jsTrim t).isEmpty then Except.error AIError.noResponse
        else
          match jsonParse (jsTrim t) with
          | some v => Except.ok v
          | none => Except.error (AIError.parseFailed (jsTrim t))⟩

/-- Field lookup on a parsed JSON object: as in a JavaScript object, a later
duplicate key overwrites an earlier one. -/
def getField (fields : List (List Char × Js)) (key : List Char) : Option Js :=
  match fields.reverse.find? (fun p => p.1 == key) with
  | some p => some p.2
  | none => none

/-- The intent shape `executeAction` destructures: a parsed value provides a
usable intent exactly when it is an object with string `action` and `device`
fields; otherwise the dispatch code throws a `TypeError` the moment it calls
a string method on the missing field. -/
def asIntent (v : Js) : Option Intent :=
  match v with
  | Js.obj fields =>
    match getField fields "action".toList, getField fields "device".toList with
    | some (Js.str a), some (Js.str d) => some { action := a, device := d }
    | _, _ => none
  | _ => none

/-- Errors the pipeline inside `handleUserCommand`'s `try` block can throw:
a resolver error, or the `TypeError` on an intent without usable fields. -/
inductive PipelineError where
  | resolver (e : AIError)
  | typeErrorOnIntent (v : Js)

/-- The resolver-then-dispatcher pipeline exactly as `handleUserCommand`
runs it: a thrown resolver error or intent `TypeError` is an `error`; a
dispatch outcome — success or a logged dispatch failure — returns normally. -/
def runPipeline (command : List Char) (completion : Completion)
    (accessories : List AccessoryInfo) : Except PipelineError DispatchResult :=
  match (processCommand command completion).result with
  | Except.error e => Except.error (PipelineError.resolver e)
  | Except.ok v =>
    match asIntent v with
    | some intent => Except.ok (executeAction accessories intent)
    | none => Except.error (PipelineError.typeErrorOnIntent v)

/-- Model of `HomebridgeAIPlatform.handleUserCommand`: the whole pipeline is
wrapped in `try/catch` and the catch only logs the error, so the method
always returns normally — its own error outcome is never produced. -/
def handleUserCommand (command : List Char) (completion : Completion)
    (accessories : List AccessoryInfo) : Except (List Char) Unit :=
  match runPipeline command completion accessories with
  | Except.ok _ => Except.ok ()
  | Except.error _ => Except.ok ()

/-- Model of the `POST /command` route body: `handleUserCommand` is awaited
inside `try`; a normal return answers HTTP 200 with the fixed success text,
a thrown error would answer HTTP 500 with the fixed failure text. -/
def postCommandRoute (command : List Char) (completion : Completion)
    (accessories : List AccessoryInfo) : Nat × List Char :=
  match handleUserCommand command completion accessories with
  | Except.ok _ => (200, "Command executed successfully.".toList)
  | Except.error _ => (500, "Error executing command.".toList)


/-- Claim C1: for a power-state (`On`) characteristic the derived value is a
case-insensitive substring match, with the cases applied in the source's
order: an action containing "turn on" or "switch on" yields `true`; one
containing "turn off" or "switch off" (and no on-phrase, the preceding case)
yields `false`; one containing none of the phrases yields no value, and the
dispatch then fails with the value-undetermined outcome without applying
anything. -/
theorem c1_power_state_value_derivation (action : List Char) :
    ((containsSub "turn on".toList (lower action) ||
      containsSub "switch on".toList (lower action)) = true →
        determineValueForAction action CharacteristicKind.On
          = some (CharacteristicValue.b true))
  ∧ ((containsSub "turn on".toList (lower action) ||
      containsSub "switch on".toList (lower action)) = false →
     (containsSub "turn off".toList (lower action) ||
      containsSub "switch off".toList (lower action)) = true →
        determineValueForAction action CharacteristicKind.On
          = some (CharacteristicValue.b false))
  ∧ ((containsSub "turn on".toList (lower action) ||
      containsSub "switch on".toList (lower action)) = false →
     (containsSub "turn off".toList (lower action) ||
      containsSub "switch off".toList (lower action)) = false →
        determineValueForAction action CharacteristicKind.On = none
      ∧ ∀ accessories acc svc device,
          findAccessoryByName accessories device = some acc →
          selectServiceForDevice acc device = some svc →
          getCharacteristicForService svc.serviceKind = some CharacteristicKind.On →
          executeAction accessories { action := action, device := device }
            = DispatchResult.valueUndetermined action) := by
  refine ⟨?_, ?_, ?_⟩
  · intro h
    simp only [determineValueForAction]
    rw [if_pos trivial, if_pos h]
  · intro h1 h2
    simp only [determineValueForAction]
    rw [if_pos trivial, if_neg (by rw [h1]; exact Bool.false_ne_true), if_pos h2]
  · intro h1 h2
    have hval : determineValueForAction action CharacteristicKind.On = none := by
      simp only [determineValueForAction]
      rw [if_pos trivial, if_neg (by rw [h1]; exact Bool.false_ne_true),
        if_neg (by rw [h2]; exact Bool.false_ne_true)]
    refine ⟨hval, ?_⟩
    intro accessories acc svc device hfind hsel hchar
    simp [executeAction, hfind, hsel, hchar, hval]

/-- Witness for C1 at a concrete action: "turn off the lamp" contains no
on-phrase, contains "turn off", and derives the value `false`. -/
theorem c1_power_state_value_derivation_witness :
    determineValueForAction "turn off the lamp".toList CharacteristicKind.On
      = some (CharacteristicValue.b false) :=
  (c1_power_state_value_derivation "turn off the lamp".toList).2.1
    (by decide) (by decide)

/-- Claim C9: the on-phrases are tested before the off-phrases, so an action
containing both an on-phrase and an off-phrase derives `true`, and the
`false` branch is reachable only when no on-phrase occurs in the text. -/
theorem c9_on_phrase_priority (action : List Char) :
    ((containsSub "turn on".toList (lower action) ||
      containsSub "switch on".toList (lower action)) = true →
     (containsSub "turn off".toList (lower action) ||
      containsSub "switch off".toList (lower action)) = true →
        determineValueForAction action CharacteristicKind.On
          = some (CharacteristicValue.b true))
  ∧ (determineValueForAction action CharacteristicKind.On
        = some (CharacteristicValue.b false) →
      (containsSub "turn on".toList (lower action) ||
       containsSub "switch on".toList (lower action)) = false) := by
  constructor
  · intro hon _
    simp only [determineValueForAction]
    rw [if_pos trivial, if_pos hon]
  · intro h
    cases hon : (containsSub "turn on".toList (lower action) ||
        containsSub "switch on".toList (lower action)) with
    | true =>
      simp only [determineValueForAction] at h
      rw [if_pos trivial, if_pos hon] at h
      exact absurd h (by decide)
    | false => rfl

/-- Witness for C9 at a concrete action containing both phrase families:
"turn on then turn off" derives `true`. -/
theorem c9_on_phrase_priority_witness :
    determineValueForAction "turn on then turn off".toList CharacteristicKind.On
      = some (CharacteristicValue.b true) :=
  (c9_on_phrase_priority "turn on then turn off".toList).1 (by decide) (by decide)

/-- Claim C5: once the device entry is found, the selected service is exactly
the first service on that device whose display name equals the intent's
device name case-insensitively (every earlier service differs), and the rest
of the dispatch is determined by that service; when no service name matches,
dispatch ends with the service-not-found outcome, so no characteristic is
looked up, read or written. -/
theorem c5_service_selection (accessories : List AccessoryInfo) (intent : Intent)
    (acc : AccessoryInfo)
    (hfind : findAccessoryByName accessories intent.device = some acc) :
    (∀ svc, selectServiceForDevice acc intent.device = some svc →
      lower svc.displayName = lower intent.device ∧
      (∃ pre post, acc.services = pre ++ svc :: post ∧
        ∀ s ∈ pre, lower s.displayName ≠ lower intent.device) ∧
      executeAction accessories intent =
        (match getCharacteristicForService svc.serviceKind with
         | none => DispatchResult.characteristicNotFound svc.displayName
         | some ck =>
           match determineValueForAction intent.action ck with
           | none => DispatchResult.valueUndetermined intent.action
           | some v => DispatchResult.applied svc.displayName ck v))
  ∧ (selectServiceForDevice acc intent.device = none →
      executeAction accessories intent = DispatchResult.serviceNotFound intent.device) := by
  constructor
  · intro svc hsel
    have hdecomp := List.find?_eq_some.mp hsel
    obtain ⟨hp, pre, post, hsplit, hprev⟩ := hdecomp
    refine ⟨eq_of_beq hp, ⟨pre, post, hsplit, ?_⟩, ?_⟩
    · intro s hs hEq
      have hb := hprev s hs
      rw [Bool.not_eq_true', beq_eq_false_iff_ne] at hb
      exact hb hEq
    · simp [executeAction, hfind, hsel]
  · intro hsel
    simp [executeAction, hfind, hsel]

/-- Witness for C5 at a concrete inventory: the fan service is skipped and
the second, name-matching service is selected; on another accessory with no
matching service name, dispatch fails with the service-not-found outcome. -/
theorem c5_service_selection_witness :
    selectServiceForDevice
        { displayName := "Den".toList,
          services := [{ displayName := "Den Fan".toList, serviceKind := ServiceKind.Fan },
                       { displayName := "den".toList, serviceKind := ServiceKind.Lightbulb }] }
        "Den".toList
      = some { displayName := "den".toList, serviceKind := ServiceKind.Lightbulb }
  ∧ executeAction
        [{ displayName := "Den".toList,
           services := [{ displayName := "Den Light".toList, serviceKind := ServiceKind.Lightbulb }] }]
        { action := "turn on".toList, device := "Den".toList }
      = DispatchResult.serviceNotFound "Den".toList := by
  constructor
  · decide
  · exact (c5_service_selection
      [{ displayName := "Den".toList,
         services := [{ displayName := "Den Light".toList, serviceKind := ServiceKind.Lightbulb }] }]
      { action := "turn on".toList, device := "Den".toList }
      { displayName := "Den".toList,
        services := [{ displayName := "Den Light".toList, serviceKind := ServiceKind.Lightbulb }] }
      (by decide)).2 (by decide)

/-- Claim C6: characteristic selection is the fixed table from service kind
to characteristic (Lightbulb, Switch, Fan, Outlet map to the power-state
characteristic, Thermostat to target temperature), and a selected service of
any kind outside the table makes dispatch fail with the
characteristic-not-found outcome. -/
theorem c6_characteristic_table :
    getCharacteristicForService ServiceKind.Lightbulb = some CharacteristicKind.On
  ∧ getCharacteristicForService ServiceKind.Switch = some CharacteristicKind.On
  ∧ getCharacteristicForService ServiceKind.Fan = some CharacteristicKind.On
  ∧ getCharacteristicForService ServiceKind.Outlet = some CharacteristicKind.On
  ∧ getCharacteristicForService ServiceKind.Thermostat
      = some CharacteristicKind.TargetTemperature
  ∧ (∀ uuid, getCharacteristicForService (ServiceKind.OtherService uuid) = none)
  ∧ (∀ accessories intent acc svc uuid,
      findAccessoryByName accessories intent.device = some acc →
      selectServiceForDevice acc intent.device = some svc →
      svc.serviceKind = ServiceKind.OtherService uuid →
      executeAction accessories intent
        = DispatchResult.characteristicNotFound svc.displayName) := by
  refine ⟨rfl, rfl, rfl, rfl, rfl, fun _ => rfl, ?_⟩
  intro accessories intent acc svc uuid hfind hsel hkind
  have hchar : getCharacteristicForService svc.serviceKind = none := by
    rw [hkind]; rfl
  simp [executeAction, hfind, hsel, hchar]

/-- Witness for C6 at a concrete inventory: a garage-door service kind is
outside the table, so dispatch fails with the characteristic-not-found
outcome. -/
theorem c6_characteristic_table_witness :
    executeAction
        [{ displayName := "Garage".toList,
           services := [{ displayName := "garage".toList,
                          serviceKind := ServiceKind.OtherService "GarageDoorOpener".toList }] }]
        { action := "open".toList, device := "garage".toList }
      = DispatchResult.characteristicNotFound "garage".toList :=
  c6_characteristic_table.2.2.2.2.2.2
    [{ displayName := "Garage".toList,
       services := [{ displayName := "garage".toList,
                      serviceKind := ServiceKind.OtherService "GarageDoorOpener".toList }] }]
    { action := "open".toList, device := "garage".toList }
    { displayName := "Garage".toList,
      services := [{ displayName := "garage".toList,
                     serviceKind := ServiceKind.OtherService "GarageDoorOpener".toList }] }
    { displayName := "garage".toList,
      serviceKind := ServiceKind.OtherService "GarageDoorOpener".toList }
    "GarageDoorOpener".toList (by decide) (by decide) rfl

/-- Claim C7: under the inventory invariant that display names are unique up
to case, `findAccessoryByName` is a case-insensitive exact match: any input
equal to a stored name up to case returns exactly that entry, and an input
equal to no stored name up to case returns the distinct not-found outcome
(`none`) — in particular no substring or fuzzy matching happens. -/
theorem c7_find_accessory_case_insensitive (accessories : List AccessoryInfo)
    (huniq : ∀ a ∈ accessories, ∀ b ∈ accessories,
      lower a.displayName = lower b.displayName → a = b) :
    (∀ acc ∈ accessories, ∀ input, lower input = lower acc.displayName →
        findAccessoryByName accessories input = some acc)
  ∧ (∀ input, (∀ acc ∈ accessories, lower input ≠ lower acc.displayName) →
        findAccessoryByName accessories input = none) := by
  constructor
  · intro acc hacc input hcase
    cases hres : findAccessoryByName accessories input with
    | none =>
      exfalso
      have hall := List.find?_eq_none.mp hres acc hacc
      exact hall (beq_iff_eq.mpr hcase.symm)
    | some b =>
      have hres' : accessories.find?
          (fun a => lower a.displayName == lower input) = some b := hres
      obtain ⟨hp, mid, tail, hsplit, -⟩ := List.find?_eq_some.mp hres'
      have hb : lower b.displayName = lower input := eq_of_beq hp
      have hmem : b ∈ accessories := by
        rw [hsplit]
        exact List.mem_append_right _ (List.mem_cons_self _ _)
      have : b = acc := huniq b hmem acc hacc (hb.trans hcase)
      rw [this]
  · intro input hnone
    apply List.find?_eq_none.mpr
    intro acc hacc hbeq
    exact hnone acc hacc (eq_of_beq hbeq).symm

/-- Witness for C7 at a concrete inventory: looking up "living room light"
in lowercase finds the entry stored as "Living Room Light", and a name
present only as a substring is not found. -/
theorem c7_find_accessory_case_insensitive_witness :
    findAccessoryByName
        [{ displayName := "Living Room Light".toList,
           services := [{ displayName := "Living Room Light".toList,
                          serviceKind := ServiceKind.Lightbulb }] }]
        "living room light".toList
      = some { displayName := "Living Room Light".toList,
               services := [{ displayName := "Living Room Light".toList,
                              serviceKind := ServiceKind.Lightbulb }] }
  ∧ findAccessoryByName
        [{ displayName := "Living Room Light".toList,
           services := [{ displayName := "Living Room Light".toList,
                          serviceKind := ServiceKind.Lightbulb }] }]
        "living room".toList
      = none := by
  constructor
  · exact (c7_find_accessory_case_insensitive
      [{ displayName := "Living Room Light".toList,
         services := [{ displayName := "Living Room Light".toList,
                        serviceKind := ServiceKind.Lightbulb }] }]
      (by decide)).1
      { displayName := "Living Room Light".toList,
        services := [{ displayName := "Living Room Light".toList,
                       serviceKind := ServiceKind.Lightbulb }] }
      (by decide) "living room light".toList (by decide)
  · decide

/-- Claim C10: even when several inventory entries share a name up to case,
the lookup deterministically returns the first matching entry in inventory
order — entries after the first match (duplicates included) never affect the
result, so repeated dispatch of the same intent against the same inventory
always targets the same device. -/
theorem c10_duplicate_names_first_entry (pre post : List AccessoryInfo)
    (acc : AccessoryInfo) (name : List Char)
    (hmatch : lower acc.displayName = lower name)
    (hpre : ∀ x ∈ pre, lower x.displayName ≠ lower name) :
    findAccessoryByName (pre ++ acc :: post) name = some acc := by
  apply List.find?_eq_some.mpr
  refine ⟨beq_iff_eq.mpr hmatch, pre, post, rfl, ?_⟩
  intro x hx
  rw [Bool.not_eq_true', beq_eq_false_iff_ne]
  exact hpre x hx

/-- Witness for C10 at a concrete inventory holding two accessories whose
names differ only in case: the first one is returned. -/
theorem c10_duplicate_names_first_entry_witness :
    findAccessoryByName
        ([] ++ { displayName := "Lamp".toList,
                 services := [{ displayName := "Lamp".toList,
                                serviceKind := ServiceKind.Lightbulb }] } ::
          [{ displayName := "lamp".toList,
             services := [{ displayName := "lamp".toList,
                            serviceKind := ServiceKind.Switch }] }])
        "LAMP".toList
      = some { displayName := "Lamp".toList,
               services := [{ displayName := "Lamp".toList,
                              serviceKind := ServiceKind.Lightbulb }] } :=
  c10_duplicate_names_first_entry []
    [{ displayName := "lamp".toList,
       services := [{ displayName := "lamp".toList,
                      serviceKind := ServiceKind.Switch }] }]
    { displayName := "Lamp".toList,
      services := [{ displayName := "Lamp".toList,
                     serviceKind := ServiceKind.Lightbulb }] }
    "LAMP".toList (by decide) (by decide)

/-- A match with a definite capture is in particular a pattern occurrence. -/
theorem hasTempPattern_of_isTempMatchWith {s ds : List Char}
    (h : IsTempMatchWith s ds) : HasTempPattern s := by
  obtain ⟨p, b, c, rest, he, hne, hdig, hb, hc, -⟩ := h
  exact ⟨p, b, c, ds, rest, he, hne, hdig, hb, hc⟩

/-- Boolean prefix test as a decomposition. -/
theorem startsWithL_iff (pat s : List Char) :
    startsWithL pat s = true ↔ ∃ t, s = pat ++ t := by
  induction pat generalizing s with
  | nil => simp [startsWithL]
  | cons p ps ih =>
    cases s with
    | nil => simp [startsWithL]
    | cons c cs =>
      simp only [startsWithL, Bool.and_eq_true, beq_iff_eq, ih, List.cons_append]
      constructor
      · rintro ⟨rfl, t, rfl⟩
        exact ⟨t, rfl⟩
      · rintro ⟨t, ht⟩
        injection ht with h1 h2
        exact ⟨h1.symm, t, h2⟩

/-- Characters inside the region a greedy `.*` may span satisfy the dot
predicate. -/
theorem take_all_of_le_takeWhile {p : Char → Bool} {l : List Char} {n : Nat}
    (h : n ≤ (l.takeWhile p).length) : ∀ x ∈ l.take n, p x = true := by
  intro x hx
  have h1 : l.take n = (l.takeWhile p).take n := by
    conv_lhs => rw [← List.takeWhile_append_dropWhile p l,
      List.take_append_of_le_length h]
  rw [h1] at hx
  exact List.mem_takeWhile_imp (List.mem_of_mem_take hx)

/-- A prefix of dot characters keeps its length below the `.*` budget. -/
theorem le_dotLen_of_prefix_all {b t : List Char}
    (hb : ∀ ch ∈ b, isDotChar ch = true) : b.length ≤ dotLen (b ++ t) := by
  rw [dotLen, List.takeWhile_append_of_pos hb, List.length_append]
  exact Nat.le_add_right _ _

/-- Completeness of one `to (\d+)` attempt at the offset of a dot-run. -/
theorem toClauseAt_isSome (c ds rest : List Char) (hds : ds ≠ [])
    (hdig : ∀ ch ∈ ds, Char.isDigit ch = true) :
    (toClauseAt (c ++ ("to ".toList ++ (ds ++ rest))) c.length).isSome := by
  rw [toClauseAt, List.drop_left]
  rw [if_pos ((startsWithL_iff _ _).mpr ⟨ds ++ rest, rfl⟩)]
  rw [List.drop_left' (show ("to ".toList).length = 3 by decide)]
  rw [List.takeWhile_append_of_pos hdig]
  have hemp : (ds ++ rest.takeWhile Char.isDigit).isEmpty = false := by
    cases ds with
    | nil => exact absurd rfl hds
    | cons x xs => rfl
  rw [if_neg (by rw [hemp]; exact Bool.false_ne_true)]
  rfl

/-- Completeness of `matchToClause` on a dot-run followed by `to <digits>`. -/
theorem matchToClause_isSome (c ds rest : List Char)
    (hc : ∀ ch ∈ c, isDotChar ch = true) (hds : ds ≠ [])
    (hdig : ∀ ch ∈ ds, Char.isDigit ch = true) :
    (matchToClause (c ++ ("to ".toList ++ (ds ++ rest)))).isSome := by
  rw [matchToClause]
  apply List.findSome?_isSome_iff.mpr
  refine ⟨c.length, ?_, toClauseAt_isSome c ds rest hds hdig⟩
  rw [List.mem_reverse, List.mem_range]
  exact Nat.lt_succ_of_le (le_dotLen_of_prefix_all hc)

/-- Completeness of one `temperature.*to (\d+)` attempt. -/
theorem temperatureClauseAt_isSome (b u : List Char)
    (hsome : (matchToClause u).isSome) :
    (temperatureClauseAt (b ++ ("temperature".toList ++ u)) b.length).isSome := by
  rw [temperatureClauseAt, List.drop_left]
  rw [if_pos ((startsWithL_iff _ _).mpr ⟨u, rfl⟩)]
  rw [List.drop_left' (show ("temperature".toList).length = 11 by decide)]
  exact hsome

/-- Completeness of `matchTemperatureClause`. -/
theorem matchTemperatureClause_isSome (b u : List Char)
    (hb : ∀ ch ∈ b, isDotChar ch = true) (hsome : (matchToClause u).isSome) :
    (matchTemperatureClause (b ++ ("temperature".toList ++ u))).isSome := by
  rw [matchTemperatureClause]
  apply List.findSome?_isSome_iff.mpr
  refine ⟨b.length, ?_, temperatureClauseAt_isSome b u hsome⟩
  rw [List.mem_reverse, List.mem_range]
  exact Nat.lt_succ_of_le (le_dotLen_of_prefix_all hb)

/-- Completeness of the whole matcher: any occurrence of the pattern makes
`tempRegexMatch` succeed. -/
theorem tempRegexMatch_isSome {s : List Char} (h : HasTempPattern s) :
    (tempRegexMatch s).isSome := by
  obtain ⟨p, b, c, ds, rest, hsplit, hds, hdig, hb, hc⟩ := h
  subst hsplit
  rw [tempRegexMatch]
  apply List.findSome?_isSome_iff.mpr
  refine ⟨p.length, ?_, ?_⟩
  · rw [List.mem_range, List.length_append]
    exact Nat.lt_succ_of_le (Nat.le_add_right _ _)
  · rw [setClauseAt, List.drop_left]
    rw [if_pos ((startsWithL_iff _ _).mpr ⟨_, rfl⟩)]
    rw [List.drop_left' (show ("set".toList).length = 3 by decide)]
    exact matchTemperatureClause_isSome b _ hb
      (matchToClause_isSome c ds rest hc hds hdig)

/-- Soundness of one `to (\d+)` attempt: a capture is a maximal non-empty
digit run right after a literal `to `. -/
theorem toClauseAt_sound {r ds : List Char} {j : Nat}
    (h : toClauseAt r j = some ds) :
    ∃ w, r.drop j = "to ".toList ++ (ds ++ w) ∧ ds ≠ [] ∧
      (∀ ch ∈ ds, Char.isDigit ch = true) ∧
      (∀ ch, w.head? = some ch → Char.isDigit ch = false) := by
  rw [toClauseAt] at h
  by_cases hsw : startsWithL "to ".toList (r.drop j) = true
  · rw [if_pos hsw] at h
    by_cases hemp : (((r.drop j).drop 3).takeWhile Char.isDigit).isEmpty = true
    · rw [if_pos hemp] at h
      simp at h
    · rw [if_neg hemp] at h
      injection h with hds
      obtain ⟨u, hu⟩ := (startsWithL_iff _ _).mp hsw
      have h3 : (r.drop j).drop 3 = u := by
        rw [hu]; exact List.drop_left' (show ("to ".toList).length = 3 by decide)
      refine ⟨u.dropWhile Char.isDigit, ?_, ?_, ?_, ?_⟩
      · rw [hu]
        congr 1
        rw [← hds, h3]
        exact (List.takeWhile_append_dropWhile Char.isDigit u).symm
      · intro hnil
        apply hemp
        rw [List.isEmpty_iff, hds, hnil]
      · intro ch hch
        rw [← hds] at hch
        exact List.mem_takeWhile_imp hch
      · intro ch hch
        have hmax := List.head?_dropWhile_not Char.isDigit u
        rw [hch] at hmax
        exact hmax
  · rw [if_neg hsw] at h
    simp at h

/-- Soundness of one `temperature` attempt. -/
theorem temperatureClauseAt_sound {r ds : List Char} {i : Nat}
    (h : temperatureClauseAt r i = some ds) :
    ∃ u, r.drop i = "temperature".toList ++ u ∧ matchToClause u = some ds := by
  rw [temperatureClauseAt] at h
  by_cases hsw : startsWithL "temperature".toList (r.drop i) = true
  · rw [if_pos hsw] at h
    obtain ⟨u, hu⟩ := (startsWithL_iff _ _).mp hsw
    have h11 : (r.drop i).drop 11 = u := by
      rw [hu]; exact List.drop_left' (show ("temperature".toList).length = 11 by decide)
    exact ⟨u, hu, by rw [← h11]; exact h⟩
  · rw [if_neg hsw] at h
    simp at h

/-- Soundness of one `set` attempt. -/
theorem setClauseAt_sound {s ds : List Char} {q : Nat}
    (h : setClauseAt s q = some ds) :
    ∃ t, s.drop q = "set".toList ++ t ∧ matchTemperatureClause t = some ds := by
  rw [setClauseAt] at h
  by_cases hsw : startsWithL "set".toList (s.drop q) = true
  · rw [if_pos hsw] at h
    obtain ⟨t, ht⟩ := (startsWithL_iff _ _).mp hsw
    have h3 : (s.drop q).drop 3 = t := by
      rw [ht]; exact List.drop_left' (show ("set".toList).length = 3 by decide)
    exact ⟨t, ht, by rw [← h3]; exact h⟩
  · rw [if_neg hsw] at h
    simp at h

/-- Soundness of `matchToClause`: any capture comes from a decomposition
dot-run, literal `to `, maximal digit run. -/
theorem matchToClause_sound {r ds : List Char} (h : matchToClause r = some ds) :
    ∃ c w, r = c ++ ("to ".toList ++ (ds ++ w)) ∧
      (∀ ch ∈ c, isDotChar ch = true) ∧ ds ≠ [] ∧
      (∀ ch ∈ ds, Char.isDigit ch = true) ∧
      (∀ ch, w.head? = some ch → Char.isDigit ch = false) := by
  rw [matchToClause] at h
  obtain ⟨j, hjmem, hj⟩ := List.exists_of_findSome?_eq_some h
  have hjle : j ≤ dotLen r := by
    rw [List.mem_reverse, List.mem_range] at hjmem
    omega
  obtain ⟨w, hw, hne, hdig, hmax⟩ := toClauseAt_sound hj
  refine ⟨r.take j, w, ?_, take_all_of_le_takeWhile hjle, hne, hdig, hmax⟩
  conv_lhs => rw [← List.take_append_drop j r]
  rw [hw]

/-- Soundness of `matchTemperatureClause`. -/
theorem matchTemperatureClause_sound {r ds : List Char}
    (h : matchTemperatureClause r = some ds) :
    ∃ b c w, r = b ++ ("temperature".toList ++ (c ++ ("to ".toList ++ (ds ++ w)))) ∧
      (∀ ch ∈ b, isDotChar ch = true) ∧ (∀ ch ∈ c, isDotChar ch = true) ∧
      ds ≠ [] ∧ (∀ ch ∈ ds, Char.isDigit ch = true) ∧
      (∀ ch, w.head? = some ch → Char.isDigit ch = false) := by
  rw [matchTemperatureClause] at h
  obtain ⟨i, himem, hi⟩ := List.exists_of_findSome?_eq_some h
  have hile : i ≤ dotLen r := by
    rw [List.mem_reverse, List.mem_range] at himem
    omega
  obtain ⟨u, hu, hto⟩ := temperatureClauseAt_sound hi
  obtain ⟨c, w, hcw, hc, hne, hdig, hmax⟩ := matchToClause_sound hto
  refine ⟨r.take i, c, w, ?_, take_all_of_le_takeWhile hile, hc, hne, hdig, hmax⟩
  conv_lhs => rw [← List.take_append_drop i r]
  rw [hu, hcw]

/-- Soundness of the whole matcher: any returned capture is a maximal digit
run occurring where the declarative pattern says. -/
theorem tempRegexMatch_sound {s ds : List Char} (h : tempRegexMatch s = some ds) :
    IsTempMatchWith s ds := by
  rw [tempRegexMatch] at h
  obtain ⟨q, hqmem, hq⟩ := List.exists_of_findSome?_eq_some h
  obtain ⟨t, ht, htemp⟩ := setClauseAt_sound hq
  obtain ⟨b, c, w, hbc, hb, hc, hne, hdig, hmax⟩ := matchTemperatureClause_sound htemp
  refine ⟨s.take q, b, c, w, ?_, hne, hdig, hb, hc, hmax⟩
  conv_lhs => rw [← List.take_append_drop q s]
  rw [ht, hbc]

/-- Claim C2: for a target-temperature characteristic, value derivation
applies the case-insensitive pattern `set...temperature...to <integer>`
(permissive infixes, modelled by `HasTempPattern`/`IsTempMatchWith` over the
lowercased action) and returns the extracted integer: the example action
yields 72, an action with no pattern occurrence yields no value, an action
with one yields some value, and every returned value is the decimal reading
of a digit run standing in a pattern occurrence. -/
theorem c2_temperature_value_derivation :
    (determineValueForAction
        "please set the thermostat temperature to 72 degrees".toList
        CharacteristicKind.TargetTemperature = some (CharacteristicValue.n 72))
  ∧ (∀ action, ¬ HasTempPattern (lower action) →
      determineValueForAction action CharacteristicKind.TargetTemperature = none)
  ∧ (∀ action, HasTempPattern (lower action) →
      ∃ v, determineValueForAction action CharacteristicKind.TargetTemperature
        = some v)
  ∧ (∀ action v,
      determineValueForAction action CharacteristicKind.TargetTemperature
          = some v →
      ∃ ds, IsTempMatchWith (lower action) ds ∧
        v = CharacteristicValue.n (digitsToNat ds)) := by
  refine ⟨by decide, ?_, ?_, ?_⟩
  · intro action hno
    cases hm : tempRegexMatch (lower action) with
    | none => simp [determineValueForAction, hm]
    | some ds =>
      exact absurd (hasTempPattern_of_isTempMatchWith (tempRegexMatch_sound hm)) hno
  · intro action h
    obtain ⟨ds, hds⟩ := Option.isSome_iff_exists.mp (tempRegexMatch_isSome h)
    exact ⟨CharacteristicValue.n (digitsToNat ds),
      by simp [determineValueForAction, hds]⟩
  · intro action v h
    cases hm : tempRegexMatch (lower action) with
    | none => simp [determineValueForAction, hm] at h
    | some ds =>
      simp [determineValueForAction, hm] at h
      exact ⟨ds, tempRegexMatch_sound hm, h.symm⟩

/-- Witness for C2 at a concrete non-matching action: "hello" contains no
occurrence of the pattern, so no value is derived. -/
theorem c2_temperature_value_derivation_witness :
    determineValueForAction "hello".toList CharacteristicKind.TargetTemperature
      = none :=
  c2_temperature_value_derivation.2.1 "hello".toList (fun h => by
    have hs := tempRegexMatch_isSome h
    rw [show tempRegexMatch (lower "hello".toList) = none by decide] at hs
    exact absurd hs (by decide))

/-- Claim C3 (code refutation): a completion text that is valid JSON but has
no `action`/`device` fields is returned by the resolver as a successful
result — `JSON.parse`'s value is passed through with no validation of its
shape — instead of failing with a malformed-intent error, and the returned
value yields no usable intent.  The claim's other half does hold: text that
is not valid JSON throws the parse error. -/
theorem c3_unvalidated_intent_fields :
    (processCommand "turn on the lamp".toList
        (Completion.response (some "\x7b\x7d".toList))).result
      = Except.ok (Js.obj [])
  ∧ asIntent (Js.obj []) = none
  ∧ (processCommand "turn on the lamp".toList
        (Completion.response (some "not json".toList))).result
      = Except.error (AIError.parseFailed "not json".toList) :=
  ⟨rfl, rfl, rfl⟩

/-- Claim C4 (counterexample): for the empty command the resolver still
performs its remote completion call (one, not zero), and given a well-formed
completion it even succeeds — it does not fail with any empty-command error,
and no such error kind exists in the code. -/
theorem c4_counterexample_empty_command_calls_remote :
    (processCommand [] (Completion.response
        (some "\x7b\"action\": \"turn on\", \"device\": \"Lamp\"\x7d".toList))).remoteCalls
      ≠ 0
  ∧ (processCommand [] (Completion.response
        (some "\x7b\"action\": \"turn on\", \"device\": \"Lamp\"\x7d".toList))).result
      = Except.ok (Js.obj [("action".toList, Js.str "turn on".toList),
                          ("device".toList, Js.str "Lamp".toList)]) :=
  ⟨Nat.one_ne_zero, rfl⟩

/-- Claim C4 (amended): empty and whitespace-only commands are not
special-cased — the resolver performs exactly one remote completion call for
every command, and its outcome depends only on the completion response, so
an empty command behaves exactly like any other command. -/
theorem c4_amended_no_empty_command_check (command : List Char)
    (completion : Completion) :
    (processCommand command completion).remoteCalls = 1
  ∧ processCommand command completion = processCommand [] completion :=
  ⟨rfl, rfl⟩

/-- Claim C8 (code refutation): the `POST /command` route answers HTTP 200
with the fixed success message for every command, completion outcome and
inventory — including runs whose pipeline fails, as the second conjunct's
resolver parse failure exhibits — because `handleUserCommand` catches and
merely logs every pipeline error; the route's HTTP 500 branch is
unreachable.  (The claim's no-crash half is thereby confirmed; the
500-on-failure half is refuted.) -/
theorem c8_route_always_succeeds :
    (∀ command completion accessories,
      postCommandRoute command completion accessories
        = (200, "Command executed successfully.".toList))
  ∧ runPipeline "turn on the lamp".toList
      (Completion.response (some "not json".toList)) []
      = Except.error (PipelineError.resolver
          (AIError.parseFailed "not json".toList)) := by
  constructor
  · intro command completion accessories
    rw [postCommandRoute]
    cases h : runPipeline command completion accessories with
    | ok r => rw [handleUserCommand, h]
    | error e => rw [handleUserCommand, h]
  · rfl
